import Mathlib

/-!
# ReviewSection.jsx: a shallow embedding

The component `src/frontend/components/ReviewSection.jsx` is embedded as pure
functions over an explicit component state.  A function that can throw returns
an `Except`.  The Numbers the component computes with are the ratings, their
running sum and one quotient by the list length; they are IEEE-754 binary64
values: `NaN`, `Infinity`, or a non-negative finite value kept exactly, an
integer as a `Nat` and the quotient as a dyadic `m / 2 ^ j`.

The array answered by `GET /api/reviews` is stored unchecked (lines 46-47).  An
element of it is `null`, or anything else, of which line 62 reads the property
`rating`: absent, or a non-negative integer literal.  Ratings that are strings,
negative or fractional are outside this embedding.
-/

namespace ReviewSection

/-! ## Data model -/

/-- One of the review records of `fixedReviews` (lines 7-29). -/
structure Review where
  id : Nat
  name : String
  rating : Nat
  message : String
  imageUrl : Option String
deriving DecidableEq, Repr

/-- One element of the array answered by `GET /api/reviews`: JSON `null`, or
any other value, whose property `rating` is absent (`none`, read as
`undefined`) or the non-negative integer literal `r` (`some r`). -/
inductive Item where
  | null
  | object (rating : Option Nat)
deriving DecidableEq, Repr

/-- An element whose rating is the integer `r`. -/
def rated (r : Nat) : Item := .object (some r)

/-- What a function of the component can throw. -/
inductive Thrown where
  | typeError
deriving DecidableEq, Repr

deriving instance DecidableEq for Except

/-! ## binary64 arithmetic used by `calculateAverageRating` -/

/-- A non-negative finite binary64 value `m / 2 ^ j`. -/
structure Dyadic where
  m : Nat
  j : Nat
deriving DecidableEq, Repr

/-- A Number: `NaN`, `Infinity` or a non-negative finite value. -/
inductive Number where
  | nan
  | infinity
  | finite (x : Dyadic)
deriving DecidableEq, Repr

/-- A Number known to be `NaN`, `Infinity` or a non-negative integer: a rating
and the running sum of line 62. -/
inductive Total where
  | nan
  | infinity
  | int (n : Nat)
deriving DecidableEq, Repr

/-- The number of doublings of `s` needed to reach `2 ^ 52 * n`, so that
`s * 2 ^ j / n` has 53 significant bits. -/
def binScale (n : Nat) : Nat → Nat → Nat
  | 0, _ => 0
  | fuel + 1, s => if 2 ^ 52 * n ≤ s then 0 else binScale n fuel (2 * s) + 1

/-- The number of halvings of `x` needed to fall below `bound`. -/
def excessBits (bound : Nat) : Nat → Nat → Nat
  | 0, _ => 0
  | fuel + 1, x => if x < bound then 0 else excessBits bound fuel (x / 2) + 1

/-- Round-to-nearest, ties-to-even, of `a / n` to an integer. -/
def roundHalfEven (a n : Nat) : Nat :=
  let q := a / n
  let r := a % n
  if 2 * r < n then q
  else if n < 2 * r then q + 1
  else if q % 2 = 0 then q else q + 1

/-- The binary64 value nearest to `s / n` when `0 < s < 2 ^ 53 * n`: the
quotient is scaled up to 53 significant bits and rounded.  A divisor is a list
length or 10, so the quotient is never small enough to be subnormal. -/
def quotUp (s n : Nat) : Dyadic :=
  let j := binScale n (53 + n) s
  ⟨roundHalfEven (s * 2 ^ j) n, j⟩

/-- The integer nearest to `s / n` among those with 53 significant bits, when
`2 ^ 53 * n ≤ s`: the quotient is scaled down, rounded and scaled back. -/
def quotDown (s n : Nat) : Nat :=
  let k := excessBits (2 ^ 53 * n) s s
  roundHalfEven s (n * 2 ^ k) * 2 ^ k

/-- The least power of two that is no finite binary64 value, `2 ^ 1024`. -/
def overflowBound : Nat := (2 ^ 256) ^ 4

/-- The binary64 value nearest to the rational `s / n` (`0 < n`), ties to even;
`Infinity` when the rounded value reaches `2 ^ 1024`. -/
def binary64 (s n : Nat) : Number :=
  if s = 0 then .finite ⟨0, 0⟩
  else if s < 2 ^ 53 * n then .finite (quotUp s n)
  else if quotDown s n < overflowBound then .finite ⟨quotDown s n, 0⟩
  else .infinity

/-- The Number nearest to the integer `x`: what `JSON.parse` makes of an integer
literal, and the rounding of an exact integer sum. -/
def roundNat (x : Nat) : Total :=
  if quotDown x 1 < overflowBound then .int (quotDown x 1) else .infinity

/-- The JavaScript `+` on two such Numbers. -/
def Total.add : Total → Total → Total
  | .nan, _ => .nan
  | _, .nan => .nan
  | .infinity, _ => .infinity
  | _, .infinity => .infinity
  | .int a, .int b => roundNat (a + b)

/-- The JavaScript `/` of such a Number by a list length `n` (`0 < n`). -/
def Total.div : Total → Nat → Number
  | .nan, _ => .nan
  | .infinity, _ => .infinity
  | .int s, n => binary64 s n

/-- The integer `t` chosen by `Number.prototype.toFixed(1)` for `x`: the `t`
with `t / 10` nearest to `x`, the larger one when two are equally near. -/
def toFixed1Tenths (x : Dyadic) : Nat := (20 * x.m + 2 ^ x.j) / 2 ^ (x.j + 1)

/-- `Math.floor` of a non-negative finite binary64 value. -/
def mathFloor (x : Dyadic) : Nat := x.m / 2 ^ x.j

/-! ## `calculateAverageRating` (lines 60-64) -/

/-- What `calculateAverageRating` returns: the Number `0` (line 61), or one of
the Strings `toFixed(1)` makes (line 63): a decimal with one fractional digit,
identified by its number of tenths; the exponent form of an integer from
`10 ^ 21` on; `Infinity`; `NaN`. -/
inductive Average where
  | zero
  | fixed (tenths : Nat)
  | exponent (x : Nat)
  | infinity
  | nan
deriving DecidableEq, Repr

/-- `Number.prototype.toFixed(1)`. -/
def toFixed1 : Number → Average
  | .nan => .nan
  | .infinity => .infinity
  | .finite x =>
    if x.m < 10 ^ 21 * 2 ^ x.j then .fixed (toFixed1Tenths x) else .exponent (mathFloor x)

/-- Whether the decimal `s * 10 ^ p` denotes the Number `x`. -/
def represents (x s p : Nat) : Bool := roundNat (s * 10 ^ p) = .int x

/-- The distance of two natural numbers. -/
def gap (a b : Nat) : Nat := (a - b) + (b - a)

/-- The decimal with `k` digits that denotes `x`, the nearest one if there are
two, if there is one. -/
def digitsAt (x k : Nat) : Option (Nat × Nat) :=
  let p := (toString x).length - k
  let lo := x / 10 ^ p
  let hi := lo + 1
  match represents x lo p, represents x hi p with
  | true, true =>
    if gap (lo * 10 ^ p) x < gap (hi * 10 ^ p) x then some (lo, p)
    else if gap (hi * 10 ^ p) x < gap (lo * 10 ^ p) x then some (hi, p)
    else if lo % 2 = 0 then some (lo, p) else some (hi, p)
  | true, false => some (lo, p)
  | false, true => some (hi, p)
  | false, false => none

/-- The shortest decimal `s * 10 ^ p` that denotes the integer Number `x`. -/
def shortestDigits (x : Nat) : Nat × Nat :=
  ((List.range 17).findSome? (fun i => digitsAt x (i + 1))).getD (x, 0)

/-- Trailing zeros of `s` moved into the exponent. -/
def stripZeros : Nat → Nat × Nat → Nat × Nat
  | 0, sp => sp
  | fuel + 1, (s, p) =>
    if s % 10 = 0 ∧ 0 < s then stripZeros fuel (s / 10, p + 1) else (s, p)

/-- `Number::toString` of an integer Number from `10 ^ 21` on: the shortest
digits, a point after the first, and the decimal exponent. -/
def exponentText (x : Nat) : String :=
  let sp := stripZeros 17 (shortestDigits x)
  let ds := (toString sp.1).toList
  let e := sp.2 + ds.length - 1
  match ds with
  | [] => ""
  | [d] => String.mk [d] ++ "e+" ++ toString e
  | d :: rest => String.mk (d :: '.' :: rest) ++ "e+" ++ toString e

/-- The text shown for an `Average`. -/
def Average.text : Average → String
  | .zero => "0"
  | .fixed t => toString (t / 10) ++ "." ++ toString (t % 10)
  | .exponent x => exponentText x
  | .infinity => "Infinity"
  | .nan => "NaN"

/-- The rational number an `Average` denotes, if it denotes one. -/
def Average.value : Average → Option ℚ
  | .zero => some 0
  | .fixed t => some ((t : ℚ) / 10)
  | .exponent x => some (x : ℚ)
  | .infinity => none
  | .nan => none

/-- The Number that `Math.floor` sees when handed an `Average`: `0` itself, or
`ToNumber` of the String (the binary64 value nearest to the decimal). -/
def Average.toNumber : Average → Number
  | .zero => .finite ⟨0, 0⟩
  | .fixed t => binary64 t 10
  | .exponent x => .finite ⟨x, 0⟩
  | .infinity => .infinity
  | .nan => .nan

/-- The Number added for one element on line 62: reading `rating` of `null`
throws, an absent `rating` adds `NaN`, an integer literal adds its Number. -/
def readRating : Item → Except Thrown Total
  | .null => .error .typeError
  | .object none => .ok .nan
  | .object (some r) => .ok (roundNat r)

/-- The fold `reduce` of line 62 from a running sum. -/
def reduceFrom (sum : Total) : List Item → Except Thrown Total
  | [] => .ok sum
  | review :: rest =>
    match readRating review with
    | .error e => .error e
    | .ok r => reduceFrom (sum.add r) rest

/-- Line 62: `reviewsList.reduce((sum, review) => sum + review.rating, 0)`. -/
def totalRating (reviewsList : List Item) : Except Thrown Total :=
  reduceFrom (.int 0) reviewsList

/-- Lines 60-64.  `none` is an absent (`null` / `undefined`) list. -/
def calculateAverageRating : Option (List Item) → Except Thrown Average
  | none => .ok .zero
  | some reviewsList =>
    if reviewsList.length = 0 then .ok .zero
    else
      match totalRating reviewsList with
      | .error e => .error e
      | .ok total => .ok (toFixed1 (total.div reviewsList.length))

/-- Lines 67-69. -/
def getTotalReviews : Option (List Item) → Nat
  | none => 0
  | some reviewsList => reviewsList.length

/-! ## `getValidImageUrl` (lines 72-90) -/

/-- Code points removed by `String.prototype.trim`: ECMAScript WhiteSpace and
LineTerminator. -/
def isJsWhiteSpace (c : Char) : Bool :=
  let v := c.toNat
  v = 0x09 || v = 0x0A || v = 0x0B || v = 0x0C || v = 0x0D || v = 0x20 || v = 0xA0 ||
  v = 0x1680 || (0x2000 ≤ v && v ≤ 0x200A) || v = 0x2028 || v = 0x2029 ||
  v = 0x202F || v = 0x205F || v = 0x3000 || v = 0xFEFF

/-- The method `trim` on a list of code points: white space is dropped at both ends. -/
def trimChars (cs : List Char) : List Char :=
  ((cs.dropWhile isJsWhiteSpace).reverse.dropWhile isJsWhiteSpace).reverse

/-- `String.prototype.trim`. -/
def jsTrim (str : String) : String := String.mk (trimChars str.toList)

/-- The default image asset. -/
def defaultImage : String := "/1.jpg"

/-- Lines 72-90.  `none` is an absent `imageUrl`; `urlParses u` says whether
`new URL(u)` returns instead of throwing (the platform's URL parser). -/
def getValidImageUrl (urlParses : String → Bool) : Option String → String
  | none => "/1.jpg"
  | some imageUrl =>
    if imageUrl = "" ∨ jsTrim imageUrl = "" then "/1.jpg"
    else if imageUrl.toList.head? = some '/' then imageUrl
    else if urlParses imageUrl then imageUrl
    else "/1.jpg"

/-- A sample URL parser: accepts exactly the strings that open with a URL
scheme (a letter, then letters, digits, `+`, `-`, `.`, then a colon). -/
def schemeOnly (u : String) : Bool :=
  let cs := u.toList
  let body := cs.takeWhile (fun c => c.isAlphanum || c = '+' || c = '-' || c = '.')
  (match cs.head? with
    | some c => c.isAlpha
    | none => false) && (cs.drop body.length).head? = some ':'

/-- An absent, empty or whitespace-only URL, as the specification words it. -/
def IsBlank : Option String → Prop
  | none => True
  | some u => ∀ c ∈ u.toList, isJsWhiteSpace c = true

/-! ## Component state, effects and outcomes of the two requests -/

/-- Lines 7-29. -/
def fixedReviews : List Review :=
  [ ⟨1001, "Tushar", 5, "Amazing gym with top-notch equipment...", some "/1.jpg"⟩,
    ⟨1002, "Manan", 4, "Great trainers and friendly environment!", some "/2.jpg"⟩,
    ⟨1003, "Rahul", 5, "I achieved my fitness goals here! Highly recommended.",
      some "/3.jpg"⟩ ]

/-- The `useState` cells of lines 31-38.  The `Set` of line 37 is the list of
its elements in insertion order. -/
structure State where
  reviews : List Review
  name : String
  rating : String
  message : String
  allReviews : List Item
  imageErrors : List Nat
  allBackendReviews : List Item
deriving DecidableEq, Repr

/-- The initial values of lines 31-38. -/
def initialState : State := ⟨fixedReviews, "", "", "", [], [], []⟩

/-- What the component does to the outside, in program order. -/
inductive Effect where
  | preventDefault
  | fetchGet (url : String)
  | fetchPost (url : String) (headers : List (String × String)) (body : String)
  | alert (text : String)
  | consoleError (label : String) (detail : String)
deriving DecidableEq, Repr

/-- What `await res.json()` yields on line 45 when it does not throw. -/
inductive JsonBody where
  | array (items : List Item)
  | nonArray
deriving DecidableEq, Repr

/-- How the read request of lines 43-45 ends: `fetch` rejects, or a response
arrives with its `ok` flag and the result of `res.json()` (which may throw). -/
inductive GetOutcome where
  | rejected (err : String)
  | response (ok : Bool) (json : Except String JsonBody)

/-- How the write request of lines 100-112 ends: `fetch` rejects, or a response
arrives with its `ok` flag and the result of `res.text()` (which may throw). -/
inductive PostOutcome where
  | rejected (err : String)
  | response (ok : Bool) (text : Except String String)

/-- The address of both requests. -/
def reviewsUrl : String := "http://localhost:8080/api/reviews"

/-! ## `fetchAllBackendReviews` (lines 41-53) -/

/-- Lines 41-53, run against one outcome of the read request. -/
def fetchAllBackendReviews (s : State) : GetOutcome → State × List Effect
  | .rejected err =>
    (s, [.fetchGet reviewsUrl, .consoleError "Error fetching backend reviews:" err])
  | .response false _ => (s, [.fetchGet reviewsUrl])
  | .response true (.error err) =>
    (s, [.fetchGet reviewsUrl, .consoleError "Error fetching backend reviews:" err])
  | .response true (.ok (.array data)) =>
    ({ s with allBackendReviews := data }, [.fetchGet reviewsUrl])
  | .response true (.ok .nonArray) => (s, [.fetchGet reviewsUrl])

/-! ## `handleImageError` (lines 93-95) and the image source (line 158) -/

/-- The method `add` on a copy of a `Set`: the element is appended unless present. -/
def setAdd (set : List Nat) (x : Nat) : List Nat :=
  if x ∈ set then set else set ++ [x]

/-- Lines 93-95. -/
def handleImageError (s : State) (reviewId : Nat) : State :=
  { s with imageErrors := setAdd s.imageErrors reviewId }

/-- Line 158: the `src` of the image of one card. -/
def imageSrc (urlParses : String → Bool) (s : State) (review : Review) : String :=
  if review.id ∈ s.imageErrors then "/1.jpg" else getValidImageUrl urlParses review.imageUrl

/-! ## `handleSubmit` (lines 97-127) -/

/-- Value of a digit or letter in `parseInt`. -/
def digitValue (c : Char) : Option Nat :=
  let v := c.toNat
  if 48 ≤ v ∧ v ≤ 57 then some (v - 48)
  else if 97 ≤ v ∧ v ≤ 122 then some (v - 87)
  else if 65 ≤ v ∧ v ≤ 90 then some (v - 55)
  else none

/-- Whether `c` is a digit of the given radix. -/
def isRadixDigit (radix : Nat) (c : Char) : Bool :=
  match digitValue c with
  | some d => d < radix
  | none => false

/-- The global `parseInt` with one argument; `none` is `NaN`.  The integer is
the Number returned whenever it is below `2 ^ 53` in absolute value. -/
def parseInt (string : String) : Option Int :=
  let s0 := string.toList.dropWhile isJsWhiteSpace
  let sign : Int := match s0 with
    | '-' :: _ => -1
    | _ => 1
  let s1 := match s0 with
    | '-' :: rest => rest
    | '+' :: rest => rest
    | _ => s0
  let radix : Nat := match s1 with
    | '0' :: 'x' :: _ => 16
    | '0' :: 'X' :: _ => 16
    | _ => 10
  let s2 := if radix = 16 then s1.drop 2 else s1
  let z := s2.takeWhile (isRadixDigit radix)
  if z = [] then none
  else some (sign * ((z.foldl (fun acc c => acc * radix + (digitValue c).getD 0) 0 : Nat) : Int))

/-- A property value of the object handed to `JSON.stringify` on line 105. -/
inductive JsonField where
  | str (s : String)
  | num (n : Option Int)
deriving DecidableEq, Repr

/-- One lower-case hexadecimal digit. -/
def hexDigit (n : Nat) : Char :=
  if n < 10 then Char.ofNat (48 + n) else Char.ofNat (87 + n)

/-- QuoteJSONString on one code point. -/
def quoteJsonChar (c : Char) : List Char :=
  let v := c.toNat
  if v = 8 then [Char.ofNat 92, 'b']
  else if v = 9 then [Char.ofNat 92, 't']
  else if v = 10 then [Char.ofNat 92, 'n']
  else if v = 12 then [Char.ofNat 92, 'f']
  else if v = 13 then [Char.ofNat 92, 'r']
  else if v = 34 then [Char.ofNat 92, Char.ofNat 34]
  else if v = 92 then [Char.ofNat 92, Char.ofNat 92]
  else if v < 32 then [Char.ofNat 92, 'u', '0', '0', hexDigit (v / 16), hexDigit (v % 16)]
  else [c]

/-- QuoteJSONString: the JSON text of a String. -/
def quoteJsonString (str : String) : String :=
  String.mk ([Char.ofNat 34] ++ str.toList.flatMap quoteJsonChar ++ [Char.ofNat 34])

/-- JSON text of one property value; `NaN` is written `null`. -/
def JsonField.text : JsonField → String
  | .str s => quoteJsonString s
  | .num none => "null"
  | .num (some n) => toString n

/-- `JSON.stringify` of an object whose property values are Strings and Numbers. -/
def jsonStringify (fields : List (String × JsonField)) : String :=
  "\x7b" ++ String.intercalate ","
    (fields.map (fun kv => quoteJsonString kv.1 ++ ":" ++ kv.2.text)) ++ "\x7d"

/-- The object literal of lines 105-109. -/
def submissionBody (s : State) : List (String × JsonField) :=
  [("name", .str s.name), ("rating", .num (parseInt s.rating)), ("message", .str s.message)]

/-- The request of lines 100-110. -/
def submissionRequest (s : State) : Effect :=
  .fetchPost reviewsUrl [("Content-Type", "application/json")] (jsonStringify (submissionBody s))

/-- The notice of line 117. -/
def successNotice : String := "Review submitted successfully! Thank you for your feedback."

/-- The notice of line 125. -/
def networkNotice : String := "Network error. Please check your connection and try again."

/-- Lines 97-127, run against one outcome of the write request and, for the
call on line 122, one outcome of the read request. -/
def handleSubmit (s : State) (post : PostOutcome) (get : GetOutcome) : State × List Effect :=
  match post with
  | .rejected err =>
    (s, [.preventDefault, submissionRequest s, .consoleError "Caught error:" err,
         .alert networkNotice])
  | .response false (.ok errorBody) =>
    (s, [.preventDefault, submissionRequest s,
         .consoleError "Error submitting review:" errorBody,
         .alert ("Failed to submit review: " ++ errorBody)])
  | .response false (.error err) =>
    (s, [.preventDefault, submissionRequest s, .consoleError "Caught error:" err,
         .alert networkNotice])
  | .response true _ =>
    let cleared := { s with name := "", rating := "", message := "" }
    let refreshed := fetchAllBackendReviews cleared get
    (refreshed.1, [.preventDefault, submissionRequest s, .alert successNotice] ++ refreshed.2)

/-! ## Events of a session -/

/-- What can happen to a mounted component: the effect of line 55, the three
`onChange` handlers, the `onError` of line 162 and the `onSubmit` of line 179. -/
inductive Event where
  | mount (get : GetOutcome)
  | changeName (value : String)
  | changeRating (value : String)
  | changeMessage (value : String)
  | imageError (reviewId : Nat)
  | submit (post : PostOutcome) (get : GetOutcome)

/-- One event applied to the state. -/
def step (s : State) : Event → State × List Effect
  | .mount get => fetchAllBackendReviews s get
  | .changeName value => ({ s with name := value }, [])
  | .changeRating value => ({ s with rating := value }, [])
  | .changeMessage value => ({ s with message := value }, [])
  | .imageError reviewId => (handleImageError s reviewId, [])
  | .submit post get => handleSubmit s post get

/-- The state after a sequence of events. -/
def run (s : State) (events : List Event) : State :=
  events.foldl (fun st ev => (step st ev).1) s

/-! ## Rendering (lines 129-228) -/

/-- The comparison `i < Math.floor(x)` of line 145: false for `NaN`. -/
def belowFloor (i : Nat) : Number → Bool
  | .nan => false
  | .infinity => true
  | .finite x => decide (i < mathFloor x)

/-- Lines 141-148: for each of the five stars, whether its class is `filled`;
the call of `calculateAverageRating` on line 145 may throw. -/
def averageStars (s : State) : Except Thrown (List Bool) :=
  match calculateAverageRating (some s.allBackendReviews) with
  | .error e => .error e
  | .ok average => .ok ((List.range 5).map (fun i => belowFloor i average.toNumber))

/-- One testimonial card of lines 156-172. -/
structure Card where
  key : String
  src : String
  alt : String
  heading : String
  stars : List String
  quote : String
deriving DecidableEq, Repr

/-- Lines 156-172 for one review at one index. -/
def renderCard (urlParses : String → Bool) (s : State) (index : Nat) (review : Review) : Card :=
  { key := toString review.id ++ "-" ++ toString index
    src := imageSrc urlParses s review
    alt := review.name
    heading := review.name
    stars := (List.range review.rating).map
      (fun i => toString review.id ++ "-star-" ++ toString i)
    quote := "\"" ++ review.message ++ "\"" }

/-- Lines 155-173: the cards, one for each entry of `fixedReviews`.  They are
part of the one expression returned on lines 129-228, see `render`. -/
def renderCards (urlParses : String → Bool) (s : State) : List Card :=
  fixedReviews.enum.map (fun p => renderCard urlParses s p.1 p.2)

/-- What the component shows: the average box of lines 136-153, the cards of
lines 154-174 and the values of the form fields of lines 179-224. -/
structure View where
  averageNumber : String
  stars : List Bool
  totalReviews : Nat
  cards : List Card
  nameValue : String
  ratingValue : String
  messageValue : String
deriving DecidableEq, Repr

/-- Lines 129-228: the expression the component returns.  It is evaluated in
order, so when `calculateAverageRating` throws on line 139 nothing is returned
and nothing is shown. -/
def render (urlParses : String → Bool) (s : State) : Except Thrown View :=
  match calculateAverageRating (some s.allBackendReviews) with
  | .error e => .error e
  | .ok average =>
    match averageStars s with
    | .error e => .error e
    | .ok stars =>
      .ok { averageNumber := average.text
            stars := stars
            totalReviews := getTotalReviews (some s.allBackendReviews)
            cards := renderCards urlParses s
            nameValue := s.name
            ratingValue := s.rating
            messageValue := s.message }

/-- Whether an effect is a POST request. -/
def Effect.isPost : Effect → Bool
  | .fetchPost _ _ _ => true
  | _ => false

/-- Whether an effect is a GET request. -/
def Effect.isGet : Effect → Bool
  | .fetchGet _ => true
  | _ => false

/-- Whether an effect is a notification shown to the user. -/
def Effect.isAlert : Effect → Bool
  | .alert _ => true
  | _ => false


/-! ## Lemmas on binary64 rounding -/

theorem binScale_reaches (n : Nat) : ∀ (fuel s : Nat), 2 ^ 52 * n ≤ s * 2 ^ fuel →
    2 ^ 52 * n ≤ s * 2 ^ binScale n fuel s := by
  intro fuel
  induction fuel with
  | zero => intro s h; simpa [binScale] using h
  | succ k ih =>
    intro s h
    unfold binScale
    split_ifs with hle
    · simpa using hle
    · have h2 : 2 ^ 52 * n ≤ (2 * s) * 2 ^ k := by
        rw [pow_succ] at h
        calc 2 ^ 52 * n ≤ s * (2 ^ k * 2) := h
          _ = (2 * s) * 2 ^ k := by ring
      have := ih (2 * s) h2
      calc 2 ^ 52 * n ≤ (2 * s) * 2 ^ binScale n k (2 * s) := this
        _ = s * 2 ^ (binScale n k (2 * s) + 1) := by rw [pow_succ]; ring

theorem binScale_least (n : Nat) : ∀ (fuel s : Nat), 0 < binScale n fuel s →
    s * 2 ^ binScale n fuel s < 2 ^ 53 * n := by
  intro fuel
  induction fuel with
  | zero => intro s h; simp [binScale] at h
  | succ k ih =>
    intro s h
    unfold binScale at h ⊢
    split_ifs at h ⊢ with hle
    · simp at h
    · push_neg at hle
      by_cases hz : 0 < binScale n k (2 * s)
      · have := ih (2 * s) hz
        calc s * 2 ^ (binScale n k (2 * s) + 1) = (2 * s) * 2 ^ binScale n k (2 * s) := by
              rw [pow_succ]; ring
          _ < 2 ^ 53 * n := this
      · have hz0 : binScale n k (2 * s) = 0 := by omega
        rw [hz0]
        simp
        omega

theorem roundHalfEven_near (a n : Nat) (hn : 0 < n) :
    2 * roundHalfEven a n * n ≤ 2 * a + n ∧ 2 * a ≤ 2 * roundHalfEven a n * n + n := by
  have hdm : n * (a / n) + a % n = a := Nat.div_add_mod a n
  have hlt : a % n < n := Nat.mod_lt a hn
  unfold roundHalfEven
  simp only
  generalize a / n = q at hdm ⊢
  generalize a % n = r at hdm hlt ⊢
  subst hdm
  split_ifs <;> constructor <;> ring_nf <;> omega

theorem quotUp_scaled (s n : Nat) (hs : 0 < s) :
    2 ^ 52 * n ≤ s * 2 ^ (quotUp s n).j := by
  simp only [quotUp]
  apply binScale_reaches
  have h1 : n ≤ 2 ^ n := le_of_lt (Nat.lt_two_pow n)
  have h2 : 2 ^ 52 * n ≤ 2 ^ 52 * 2 ^ n := Nat.mul_le_mul_left _ h1
  have h3 : (2 : ℕ) ^ 52 * 2 ^ n ≤ 1 * 2 ^ (53 + n) := by
    rw [one_mul, ← pow_add]
    exact Nat.pow_le_pow_right (by norm_num) (by omega)
  calc 2 ^ 52 * n ≤ 1 * 2 ^ (53 + n) := le_trans h2 h3
    _ ≤ s * 2 ^ (53 + n) := Nat.mul_le_mul_right _ hs

theorem quotUp_near (s n : Nat) (hn : 0 < n) :
    2 * (quotUp s n).m * n ≤ 2 * (s * 2 ^ (quotUp s n).j) + n ∧
    2 * (s * 2 ^ (quotUp s n).j) ≤ 2 * (quotUp s n).m * n + n := by
  simp only [quotUp]
  exact roundHalfEven_near _ _ hn

theorem toFixed1Tenths_bounds (x : Dyadic) :
    2 * 2 ^ x.j * toFixed1Tenths x ≤ 20 * x.m + 2 ^ x.j ∧
    20 * x.m + 2 ^ x.j < 2 * 2 ^ x.j * toFixed1Tenths x + 2 * 2 ^ x.j := by
  unfold toFixed1Tenths
  have hp : 0 < 2 ^ (x.j + 1) := by positivity
  have e : 2 ^ (x.j + 1) = 2 * 2 ^ x.j := by rw [pow_succ]; ring
  have h1 := Nat.div_mul_le_self (20 * x.m + 2 ^ x.j) (2 ^ (x.j + 1))
  have h2 := Nat.lt_div_mul_add (a := 20 * x.m + 2 ^ x.j) hp
  rw [e] at h1 h2 ⊢
  constructor
  · linarith
  · linarith

theorem round_core (s n M J t : ℕ) (hn : 0 < n) (hs : 20 * s < 2 ^ 53)
    (ha : 2 ^ 52 * n ≤ s * J)
    (hb1 : 2 * M * n ≤ 2 * (s * J) + n) (hb2 : 2 * (s * J) ≤ 2 * M * n + n)
    (hc1 : 2 * J * t ≤ 20 * M + J) (hc2 : 20 * M + J < 2 * J * t + 2 * J) :
    2 * t * n ≤ 20 * s + n ∧ 20 * s ≤ 2 * t * n + n := by
  have key : ∀ J' : ℕ, J' ≤ 10 * n → 2 ^ 52 * n ≤ s * J' → False := by
    intro J' h1 h2
    have h3 : s * J' ≤ s * (10 * n) := Nat.mul_le_mul_left s h1
    have h4 : 2 ^ 52 * n ≤ (10 * s) * n := by
      calc 2 ^ 52 * n ≤ s * J' := h2
        _ ≤ s * (10 * n) := h3
        _ = (10 * s) * n := by ring
    have h5 : 2 ^ 52 ≤ 10 * s := Nat.le_of_mul_le_mul_right h4 hn
    omega
  constructor
  · by_contra hcon
    push_neg at hcon
    apply key J _ ha
    have e1 : (20 * s + n + 1) * J ≤ (2 * t * n) * J := Nat.mul_le_mul_right J hcon
    have e2 : (2 * J * t) * n ≤ (20 * M + J) * n := Nat.mul_le_mul_right n hc1
    nlinarith
  · by_contra hcon
    push_neg at hcon
    apply key J _ ha
    have e1 : (2 * t * n + n + 1) * J ≤ (20 * s) * J := Nat.mul_le_mul_right J hcon
    have e2 : (20 * M + J) * n < (2 * J * t + 2 * J) * n := Nat.mul_lt_mul_of_pos_right hc2 hn
    nlinarith

theorem tenths_nearest (s n : Nat) (hn : 0 < n) (hpos : 0 < s) (hs : 20 * s < 2 ^ 53) :
    2 * toFixed1Tenths (quotUp s n) * n ≤ 20 * s + n ∧
    20 * s ≤ 2 * toFixed1Tenths (quotUp s n) * n + n := by
  obtain ⟨hb1, hb2⟩ := quotUp_near s n hn
  obtain ⟨hc1, hc2⟩ := toFixed1Tenths_bounds (quotUp s n)
  exact round_core s n _ _ _ hn hs (quotUp_scaled s n hpos) hb1 hb2 hc1 hc2

theorem floor_lower (s n M J k : ℕ) (hn : 0 < n) (hJ : 0 < J) (hk : k * n ≤ s)
    (hb2 : 2 * (s * J) ≤ 2 * M * n + n) : k ≤ M / J := by
  rw [Nat.le_div_iff_mul_le hJ]
  by_contra hcon
  push_neg at hcon
  have e1 : (M + 1) * n ≤ (k * J) * n := Nat.mul_le_mul_right n hcon
  have e2 : (k * n) * J ≤ s * J := Nat.mul_le_mul_right J hk
  nlinarith

theorem floor_core (s n M J : ℕ) (hn : 0 < n) (hJ : n < 2 * J)
    (hb1 : 2 * M * n ≤ 2 * (s * J) + n) (hb2 : 2 * (s * J) ≤ 2 * M * n + n) :
    M / J = s / n := by
  have hJ0 : 0 < J := by omega
  have hk1 : s / n * n ≤ s := Nat.div_mul_le_self s n
  have hk2 : s < s / n * n + n := Nat.lt_div_mul_add hn
  apply le_antisymm
  · generalize s / n = k at hk1 hk2 ⊢
    apply Nat.le_of_lt_succ
    rw [Nat.div_lt_iff_lt_mul hJ0]
    by_contra hcon
    push_neg at hcon
    have e1 : ((k + 1) * J) * n ≤ M * n := Nat.mul_le_mul_right n hcon
    have e2 : (s + 1) * J ≤ (k * n + n) * J := Nat.mul_le_mul_right J hk2
    nlinarith
  · exact floor_lower s n M J _ hn hJ0 hk1 hb2

theorem mathFloor_quotUp (s n : Nat) (hn : 0 < n) (hpos : 0 < s) (hs : s < 2 ^ 53) :
    mathFloor (quotUp s n) = s / n := by
  obtain ⟨hb1, hb2⟩ := quotUp_near s n hn
  have ha := quotUp_scaled s n hpos
  unfold mathFloor
  apply floor_core s n _ _ hn _ hb1 hb2
  by_contra hcon
  push_neg at hcon
  have e1 : s * (2 * 2 ^ (quotUp s n).j) ≤ s * n := Nat.mul_le_mul_left s hcon
  have e2 : 2 * (2 ^ 52 * n) ≤ s * n := by
    calc 2 * (2 ^ 52 * n) ≤ 2 * (s * 2 ^ (quotUp s n).j) := Nat.mul_le_mul_left 2 ha
      _ = s * (2 * 2 ^ (quotUp s n).j) := by ring
      _ ≤ s * n := e1
  have e3 : (2 * 2 ^ 52) * n ≤ s * n := by
    calc (2 * 2 ^ 52) * n = 2 * (2 ^ 52 * n) := by ring
      _ ≤ s * n := e2
  have e4 := Nat.le_of_mul_le_mul_right e3 hn
  omega

theorem mathFloor_quotUp_ge (s n k : Nat) (hn : 0 < n) (hk : k * n ≤ s) :
    k ≤ mathFloor (quotUp s n) := by
  obtain ⟨_, hb2⟩ := quotUp_near s n hn
  exact floor_lower s n _ _ k hn (by positivity) hk hb2

theorem quotUp_small (s n : Nat) (hn : 0 < n) (hs : s < 2 ^ 53) :
    (quotUp s n).m < 10 ^ 21 * 2 ^ (quotUp s n).j := by
  obtain ⟨hb1, _⟩ := quotUp_near s n hn
  have hJ : 0 < 2 ^ (quotUp s n).j := by positivity
  generalize (quotUp s n).m = M at hb1 ⊢
  generalize 2 ^ (quotUp s n).j = J at hb1 hJ ⊢
  have h1 : M ≤ s * J := by
    by_contra hcon
    push_neg at hcon
    have e1 : (s * J + 1) * n ≤ M * n := Nat.mul_le_mul_right n hcon
    have e2 : s * J ≤ s * J * n := Nat.le_mul_of_pos_right _ hn
    nlinarith
  have h2 : s * J < 10 ^ 21 * J := Nat.mul_lt_mul_of_pos_right (by omega) hJ
  omega

theorem excessBits_small (bound fuel x : Nat) (h : x < bound) :
    excessBits bound fuel x = 0 := by
  cases fuel with
  | zero => rfl
  | succ k => simp [excessBits, h]

theorem excessBits_lower (bound : Nat) : ∀ (fuel x : Nat), bound ≤ x →
    bound * 2 ^ excessBits bound fuel x ≤ 2 * x := by
  intro fuel
  induction fuel with
  | zero => intro x h; simp [excessBits]; omega
  | succ k ih =>
    intro x h
    have hnlt : ¬ x < bound := by omega
    simp only [excessBits, if_neg hnlt]
    by_cases h2 : bound ≤ x / 2
    · have := ih (x / 2) h2
      rw [pow_succ]
      have hx : 2 * (x / 2) ≤ x := Nat.mul_div_le x 2
      nlinarith
    · push_neg at h2
      rw [excessBits_small bound k (x / 2) h2]
      simp
      omega

theorem quotDown_ge (s n : Nat) (hn : 0 < n) (hs : 2 ^ 53 * n ≤ s) :
    2 ^ 52 ≤ quotDown s n := by
  have hlow := excessBits_lower (2 ^ 53 * n) s s hs
  simp only [quotDown]
  generalize excessBits (2 ^ 53 * n) s s = k at hlow ⊢
  have hd : 0 < n * 2 ^ k := by positivity
  obtain ⟨_, hb2⟩ := roundHalfEven_near s (n * 2 ^ k) hd
  generalize roundHalfEven s (n * 2 ^ k) = m at hb2 ⊢
  have hk : 1 ≤ 2 ^ k := Nat.one_le_two_pow
  have hm : 2 ^ 52 ≤ m := by
    by_contra hcon
    push_neg at hcon
    have e1 : (m + 1) * (n * 2 ^ k) ≤ 2 ^ 52 * (n * 2 ^ k) := Nat.mul_le_mul_right _ hcon
    nlinarith
  calc 2 ^ 52 ≤ m := hm
    _ = m * 1 := (mul_one m).symm
    _ ≤ m * 2 ^ k := Nat.mul_le_mul_left m hk

theorem roundNat_exact (x : Nat) (h : x < 2 ^ 53) : roundNat x = .int x := by
  have hq : quotDown x 1 = x := by
    simp only [quotDown]
    rw [excessBits_small _ _ _ (by omega)]
    simp [roundHalfEven, Nat.mod_one]
  have hb : x < overflowBound := by
    have : (2 : ℕ) ^ 53 ≤ overflowBound := by
      unfold overflowBound
      norm_num
    omega
  simp only [roundNat, hq, if_pos hb]

/-! ## Lemmas on `calculateAverageRating` and the average stars -/

theorem reduceFrom_rated : ∀ (rs : List Nat) (a : Nat), a + rs.sum < 2 ^ 53 →
    reduceFrom (.int a) (rs.map rated) = .ok (.int (a + rs.sum)) := by
  intro rs
  induction rs with
  | nil => intro a _; simp [reduceFrom]
  | cons r rest ih =>
    intro a h
    simp only [List.sum_cons] at h
    have hr : roundNat r = .int r := roundNat_exact r (by omega)
    have har : roundNat (a + r) = .int (a + r) := roundNat_exact (a + r) (by omega)
    simp only [List.map_cons, reduceFrom, rated, readRating, hr, Total.add, har, List.sum_cons]
    rw [← Nat.add_assoc]
    exact ih (a + r) (by omega)

theorem totalRating_rated (rs : List Nat) (h : rs.sum < 2 ^ 53) :
    totalRating (rs.map rated) = .ok (.int rs.sum) := by
  have := reduceFrom_rated rs 0 (by omega)
  simpa [totalRating] using this

theorem binary64_small (s n : Nat) (hn : 0 < n) (hs : s < 2 ^ 53) :
    ∃ x, binary64 s n = .finite x ∧ toFixed1 (.finite x) = .fixed (toFixed1Tenths x) ∧
      x = (if s = 0 then ⟨0, 0⟩ else quotUp s n) := by
  by_cases h0 : s = 0
  · refine ⟨⟨0, 0⟩, ?_, ?_, ?_⟩
    · simp [binary64, h0]
    · simp [toFixed1]
    · simp [h0]
  · have hlt : s < 2 ^ 53 * n := by
      calc s < 2 ^ 53 := hs
        _ = 2 ^ 53 * 1 := (mul_one _).symm
        _ ≤ 2 ^ 53 * n := Nat.mul_le_mul_left _ hn
    refine ⟨quotUp s n, ?_, ?_, ?_⟩
    · simp only [binary64, if_neg h0, if_pos hlt]
    · simp only [toFixed1, if_pos (quotUp_small s n hn hs)]
    · simp [h0]

theorem average_nearest (rs : List Nat) (hne : rs ≠ []) (hsum : 20 * rs.sum < 2 ^ 53) :
    ∃ t, calculateAverageRating (some (rs.map rated)) = .ok (.fixed t) ∧
      2 * t * rs.length ≤ 20 * rs.sum + rs.length ∧
      20 * rs.sum ≤ 2 * t * rs.length + rs.length := by
  have hpos : 0 < rs.length := List.length_pos.mpr hne
  have hlen0 : rs.length ≠ 0 := by omega
  obtain ⟨x, hx, hfix, hdef⟩ := binary64_small rs.sum rs.length hpos (by omega)
  refine ⟨toFixed1Tenths x, ?_, ?_⟩
  · simp only [calculateAverageRating, List.length_map, if_neg hlen0,
      totalRating_rated rs (by omega), Total.div, hx, hfix]
  · rw [hdef]
    by_cases h0 : rs.sum = 0
    · simp only [h0, if_true]
      have : toFixed1Tenths ⟨0, 0⟩ = 0 := by decide
      rw [this]
      omega
    · simp only [if_neg h0]
      exact tenths_nearest _ _ hpos (by omega) hsum

theorem near_tenth_rat (t s n : Nat) (hn : 0 < n) (h1 : 2 * t * n ≤ 20 * s + n)
    (h2 : 20 * s ≤ 2 * t * n + n) : |(t : ℚ) / 10 - (s : ℚ) / (n : ℚ)| ≤ 1 / 20 := by
  have hnq : (0 : ℚ) < n := by exact_mod_cast hn
  have q1 : (2 * t * n : ℚ) ≤ 20 * s + n := by exact_mod_cast h1
  have q2 : (20 * s : ℚ) ≤ 2 * t * n + n := by exact_mod_cast h2
  have e : (t : ℚ) / 10 - (s : ℚ) / (n : ℚ) = ((t : ℚ) * n - 10 * s) / (10 * n) := by
    field_simp
  rw [e, abs_le]
  constructor
  · rw [le_div_iff₀ (by positivity)]
    nlinarith
  · rw [div_le_iff₀ (by positivity)]
    nlinarith

theorem belowFloor_tenths (t i : Nat) (hi : i < 5) :
    belowFloor i (binary64 t 10) = decide (i < t / 10) := by
  by_cases h0 : t = 0
  · subst h0
    simp [binary64, belowFloor, mathFloor]
  · by_cases hlt : t < 2 ^ 53 * 10
    · simp only [binary64, if_neg h0, if_pos hlt, belowFloor]
      by_cases hs : t < 2 ^ 53
      · rw [mathFloor_quotUp t 10 (by norm_num) (by omega) hs]
      · have h5 : 5 ≤ mathFloor (quotUp t 10) :=
          mathFloor_quotUp_ge t 10 5 (by norm_num) (by omega)
        have h5' : 5 ≤ t / 10 := by omega
        have a1 : i < mathFloor (quotUp t 10) := by omega
        have a2 : i < t / 10 := by omega
        simp [a1, a2]
    · have hge : 2 ^ 53 * 10 ≤ t := by omega
      have hq := quotDown_ge t 10 (by norm_num) hge
      have a2 : i < t / 10 := by omega
      simp only [binary64, if_neg h0, if_neg hlt]
      split_ifs
      · have a1 : i < mathFloor ⟨quotDown t 10, 0⟩ := by
          simp only [mathFloor, pow_zero, Nat.div_one]
          omega
        simp [belowFloor, a1, a2]
      · simp [belowFloor, a2]

theorem belowFloor_value (a : Average) (v : ℚ) (hv : a.value = some v) (i : Nat)
    (hi : i < 5) : belowFloor i a.toNumber = decide (i < ⌊v⌋₊) := by
  cases a with
  | zero =>
    simp only [Average.value, Option.some.injEq] at hv
    subst hv
    simp [Average.toNumber, belowFloor, mathFloor]
  | fixed t =>
    simp only [Average.value, Option.some.injEq] at hv
    subst hv
    have e : (t : ℚ) / 10 = (t : ℚ) / ((10 : ℕ) : ℚ) := by norm_num
    rw [e, Nat.floor_div_eq_div]
    exact belowFloor_tenths t i hi
  | exponent x =>
    simp only [Average.value, Option.some.injEq] at hv
    subst hv
    simp [Average.toNumber, belowFloor, mathFloor]
  | infinity => simp [Average.value] at hv
  | nan => simp [Average.value] at hv

theorem stars_count (k : Nat) :
    ((List.range 5).map (fun i => decide (i < k))).count true = min 5 k := by
  by_cases hk : k ≤ 5
  · rw [Nat.min_eq_right hk]
    interval_cases k <;> decide
  · push_neg at hk
    rw [Nat.min_eq_left (le_of_lt hk)]
    have : (List.range 5).map (fun i => decide (i < k)) = [true, true, true, true, true] := by
      have h0 : 0 < k := by omega
      have h1 : 1 < k := by omega
      have h2 : 2 < k := by omega
      have h3 : 3 < k := by omega
      have h4 : 4 < k := by omega
      simp [List.range_succ, h0, h1, h2, h3, h4]
    rw [this]
    decide

theorem averageStars_of (s : State) (a : Average) (v : ℚ)
    (hcalc : calculateAverageRating (some s.allBackendReviews) = .ok a)
    (hv : a.value = some v) :
    averageStars s = .ok ((List.range 5).map (fun i => decide (i < ⌊v⌋₊))) := by
  simp only [averageStars, hcalc]
  congr 1
  apply List.map_congr_left
  intro i hi
  exact belowFloor_value a v hv i (List.mem_range.mp hi)

/-! ## Lemmas on `getValidImageUrl` and the image-error set -/

theorem trimChars_eq_nil (cs : List Char) :
    trimChars cs = [] ↔ ∀ c ∈ cs, isJsWhiteSpace c = true := by
  unfold trimChars
  rw [List.reverse_eq_nil_iff, List.dropWhile_eq_nil_iff]
  constructor
  · intro h
    have hd : cs.dropWhile isJsWhiteSpace = [] := by
      cases hcs : cs.dropWhile isJsWhiteSpace with
      | nil => rfl
      | cons a as =>
        exfalso
        have hna : ¬ (isJsWhiteSpace a = true) := by
          have := List.head_dropWhile_not isJsWhiteSpace cs (by rw [hcs]; simp)
          simpa [hcs] using this
        apply hna
        apply h a
        rw [hcs]
        simp
    exact List.dropWhile_eq_nil_iff.mp hd
  · intro h c hc
    apply h c
    exact (List.dropWhile_sublist _).subset (List.mem_reverse.mp hc)

theorem jsTrim_eq_empty (str : String) :
    jsTrim str = "" ↔ ∀ c ∈ str.toList, isJsWhiteSpace c = true := by
  rw [← trimChars_eq_nil]
  unfold jsTrim
  constructor
  · intro h
    have := congrArg String.toList h
    simpa using this
  · intro h
    rw [h]

theorem blank_guard (u : String) : (u = "" ∨ jsTrim u = "") ↔ IsBlank (some u) := by
  rw [jsTrim_eq_empty]
  constructor
  · rintro (h | h)
    · subst h
      intro c hc
      simp at hc
    · exact h
  · intro h
    exact Or.inr h

theorem mem_setAdd (set : List Nat) (x y : Nat) : y ∈ setAdd set x ↔ y = x ∨ y ∈ set := by
  unfold setAdd
  split_ifs with h
  · constructor
    · intro hy; exact Or.inr hy
    · rintro (rfl | hy)
      · exact h
      · exact hy
  · simp [or_comm]

theorem fetch_keeps_drafts (s : State) (get : GetOutcome) :
    (fetchAllBackendReviews s get).1.imageErrors = s.imageErrors ∧
    (fetchAllBackendReviews s get).1.name = s.name ∧
    (fetchAllBackendReviews s get).1.rating = s.rating ∧
    (fetchAllBackendReviews s get).1.message = s.message := by
  rcases get with err | ⟨ok, json⟩
  · exact ⟨rfl, rfl, rfl, rfl⟩
  · cases ok with
    | false => exact ⟨rfl, rfl, rfl, rfl⟩
    | true =>
      rcases json with err | body
      · exact ⟨rfl, rfl, rfl, rfl⟩
      · cases body <;> exact ⟨rfl, rfl, rfl, rfl⟩

theorem submit_keeps_imageErrors (s : State) (post : PostOutcome) (get : GetOutcome) :
    (handleSubmit s post get).1.imageErrors = s.imageErrors := by
  rcases post with err | ⟨ok, text⟩
  · rfl
  · cases ok with
    | false => cases text <;> rfl
    | true =>
      simp only [handleSubmit]
      rw [(fetch_keeps_drafts _ get).1]

theorem step_imageErrors (s : State) (ev : Event) (x : Nat) (hx : x ∈ s.imageErrors) :
    x ∈ (step s ev).1.imageErrors := by
  cases ev with
  | mount get => simp only [step]; rw [(fetch_keeps_drafts s get).1]; exact hx
  | changeName v => exact hx
  | changeRating v => exact hx
  | changeMessage v => exact hx
  | imageError reviewId =>
    simp only [step, handleImageError]
    exact (mem_setAdd _ _ _).mpr (Or.inr hx)
  | submit post get => simp only [step]; rw [submit_keeps_imageErrors]; exact hx

theorem run_imageErrors (events : List Event) : ∀ (s : State) (x : Nat),
    x ∈ s.imageErrors → x ∈ (run s events).imageErrors := by
  induction events with
  | nil => intro s x hx; exact hx
  | cons ev evs ih =>
    intro s x hx
    simp only [run, List.foldl_cons]
    exact ih _ x (step_imageErrors s ev x hx)

theorem fetch_effects (s : State) (get : GetOutcome) :
    (fetchAllBackendReviews s get).2.filter Effect.isPost = [] ∧
    (fetchAllBackendReviews s get).2.filter Effect.isAlert = [] ∧
    (fetchAllBackendReviews s get).2.filter Effect.isGet = [.fetchGet reviewsUrl] := by
  rcases get with err | ⟨ok, json⟩
  · exact ⟨rfl, rfl, rfl⟩
  · cases ok with
    | false => exact ⟨rfl, rfl, rfl⟩
    | true =>
      rcases json with err | body
      · exact ⟨rfl, rfl, rfl⟩
      · cases body <;> exact ⟨rfl, rfl, rfl⟩

theorem submit_posts (s : State) (post : PostOutcome) (get : GetOutcome) :
    (handleSubmit s post get).2.filter Effect.isPost = [submissionRequest s] := by
  rcases post with err | ⟨ok, text⟩
  · rfl
  · cases ok with
    | false => cases text <;> rfl
    | true =>
      simp only [handleSubmit]
      rw [List.filter_append, (fetch_effects _ get).1]
      rfl

theorem parseInt_rating (r : Nat) (h1 : 1 ≤ r) (h5 : r ≤ 5) :
    parseInt (toString r) = some (r : Int) := by
  interval_cases r <;> decide

/-! ## The claims -/

/-- C1, as amended: for every non-empty review list whose elements all carry a
non-negative integer rating, with twenty times the sum of the ratings below
`2 ^ 53`, `calculateAverageRating` returns a one-decimal `toFixed(1)` string
whose value is a nearest tenth to the sum of all ratings divided by the number
of reviews (it differs from the exact quotient by at most one twentieth); the
ratings 5, 4, 5 give `4.7`. -/
theorem calculateAverageRating_rounds_to_tenth (rs : List Nat) (hne : rs ≠ [])
    (hsum : 20 * rs.sum < 2 ^ 53) :
    (∃ t, calculateAverageRating (some (rs.map rated)) = .ok (.fixed t) ∧
      |(t : ℚ) / 10 - (rs.sum : ℚ) / (rs.length : ℚ)| ≤ 1 / 20) ∧
    calculateAverageRating (some [rated 5, rated 4, rated 5]) = .ok (.fixed 47) ∧
    (Average.fixed 47).text = "4.7" := by
  obtain ⟨t, ht, h1, h2⟩ := average_nearest rs hne hsum
  have hpos : 0 < rs.length := List.length_pos.mpr hne
  exact ⟨⟨t, ht, near_tenth_rat t _ _ hpos h1 h2⟩, by decide, by decide⟩

/-- Witness of C1 at the ratings 5, 4, 5. -/
theorem calculateAverageRating_rounds_to_tenth_witness :
    ∃ t, calculateAverageRating (some ([5, 4, 5].map rated)) = .ok (.fixed t) ∧
      |(t : ℚ) / 10 - (([5, 4, 5] : List Nat).sum : ℚ) / (([5, 4, 5] : List Nat).length : ℚ)|
        ≤ 1 / 20 :=
  (calculateAverageRating_rounds_to_tenth [5, 4, 5] (by decide) (by decide)).1

/-- C1 as stated fails on the ratings `2 ^ 53`, 1, 1, 1: each `+ 1` of line 62
is rounded away, the result is `2251799813685248.0`, and no one-decimal result
is within one twentieth of the exact mean `2251799813685248.75`. -/
theorem calculateAverageRating_sum_rounded_away :
    calculateAverageRating (some ([2 ^ 53, 1, 1, 1].map rated))
      = .ok (.fixed 22517998136852480) ∧
    (Average.fixed 22517998136852480).text = "2251799813685248.0" ∧
    ¬ ∃ t, calculateAverageRating (some ([2 ^ 53, 1, 1, 1].map rated)) = .ok (.fixed t) ∧
      |(t : ℚ) / 10 - (([2 ^ 53, 1, 1, 1] : List Nat).sum : ℚ)
          / (([2 ^ 53, 1, 1, 1] : List Nat).length : ℚ)| ≤ 1 / 20 := by
  have hev : calculateAverageRating (some ([2 ^ 53, 1, 1, 1].map rated))
      = .ok (.fixed 22517998136852480) := by decide
  refine ⟨hev, by decide, ?_⟩
  rintro ⟨t, ht, hb⟩
  rw [hev] at ht
  have ht' : (22517998136852480 : Nat) = t := by
    injection ht with h
    injection h
  subst ht'
  norm_num at hb
  rw [abs_le] at hb
  norm_num at hb

/-- C2: for a review list that is empty or absent, `calculateAverageRating`
yields the Number 0. -/
theorem calculateAverageRating_empty_or_absent :
    calculateAverageRating none = .ok .zero ∧ calculateAverageRating (some []) = .ok .zero ∧
    Average.zero.value = some 0 ∧ Average.zero.text = "0" :=
  ⟨rfl, rfl, rfl, rfl⟩

/-- C3: `getValidImageUrl` follows the ordered policy: an absent, empty or
whitespace-only URL gives the default asset; otherwise a URL that begins with `/`
is returned verbatim; otherwise the URL is returned verbatim when the URL parser
accepts it and the default asset is returned when it does not.  The empty and the
absent URL give the default, `/custom.jpg` is returned verbatim, and a URL the
parser rejects (accepts) gives the default (is returned verbatim). -/
theorem getValidImageUrl_policy (urlParses : String → Bool) (imageUrl : Option String) :
    (IsBlank imageUrl → getValidImageUrl urlParses imageUrl = defaultImage) ∧
    (∀ u, imageUrl = some u → ¬ IsBlank imageUrl → u.toList.head? = some '/' →
      getValidImageUrl urlParses imageUrl = u) ∧
    (∀ u, imageUrl = some u → ¬ IsBlank imageUrl → u.toList.head? ≠ some '/' →
      getValidImageUrl urlParses imageUrl = if urlParses u then u else defaultImage) ∧
    getValidImageUrl urlParses (some "") = defaultImage ∧
    getValidImageUrl urlParses none = defaultImage ∧
    getValidImageUrl urlParses (some "/custom.jpg") = "/custom.jpg" ∧
    (urlParses "not a url" = false →
      getValidImageUrl urlParses (some "not a url") = defaultImage) ∧
    (urlParses "https://example.com/x.jpg" = true →
      getValidImageUrl urlParses (some "https://example.com/x.jpg")
        = "https://example.com/x.jpg") := by
  refine ⟨?_, ?_, ?_, ?_, rfl, ?_, ?_, ?_⟩
  · intro hb
    cases imageUrl with
    | none => rfl
    | some u =>
      have hg := (blank_guard u).mpr hb
      simp only [getValidImageUrl, if_pos hg, defaultImage]
  · intro u hu hnb hslash
    subst hu
    have hg : ¬ (u = "" ∨ jsTrim u = "") := fun h => hnb ((blank_guard u).mp h)
    simp only [getValidImageUrl, if_neg hg, if_pos hslash]
  · intro u hu hnb hslash
    subst hu
    have hg : ¬ (u = "" ∨ jsTrim u = "") := fun h => hnb ((blank_guard u).mp h)
    simp only [getValidImageUrl, if_neg hg, if_neg hslash, defaultImage]
  · simp [getValidImageUrl, defaultImage]
  · have hg : ¬ (("/custom.jpg" : String) = "" ∨ jsTrim "/custom.jpg" = "") := by decide
    have hslash : ("/custom.jpg" : String).toList.head? = some '/' := by decide
    simp only [getValidImageUrl, if_neg hg, if_pos hslash]
  · intro h
    have hg : ¬ (("not a url" : String) = "" ∨ jsTrim "not a url" = "") := by decide
    have hslash : ¬ (("not a url" : String).toList.head? = some '/') := by decide
    simp only [getValidImageUrl, if_neg hg, if_neg hslash, h, defaultImage]
    rfl
  · intro h
    have hg : ¬ (("https://example.com/x.jpg" : String) = "" ∨
        jsTrim "https://example.com/x.jpg" = "") := by decide
    have hslash : ¬ (("https://example.com/x.jpg" : String).toList.head? = some '/') := by
      decide
    simp only [getValidImageUrl, if_neg hg, if_neg hslash, h]
    rfl

/-- Witness of C3 with a parser that accepts exactly the strings opening with a
URL scheme: a rejected URL, an accepted URL and a whitespace-only URL. -/
theorem getValidImageUrl_policy_witness :
    getValidImageUrl schemeOnly (some "not a url") = defaultImage ∧
    getValidImageUrl schemeOnly (some "https://example.com/x.jpg")
      = "https://example.com/x.jpg" ∧
    getValidImageUrl schemeOnly (some "   ") = defaultImage :=
  ⟨(getValidImageUrl_policy schemeOnly none).2.2.2.2.2.2.1 (by decide),
   (getValidImageUrl_policy schemeOnly none).2.2.2.2.2.2.2 (by decide),
   (getValidImageUrl_policy schemeOnly (some "   ")).1
     (show ∀ c ∈ ("   " : String).toList, isJsWhiteSpace c = true by decide)⟩

/-- C4: once `handleImageError` has recorded a failure for a review identifier,
the image source of a review with that identifier is the default asset, whatever
its `imageUrl`, in that state and after any sequence of later events;
`handleImageError` adds the identifier and nothing else to the image-error set,
and no event removes an identifier from the set. -/
theorem handleImageError_sticky (urlParses : String → Bool) (s : State) (reviewId : Nat)
    (events : List Event) (review : Review) (hid : review.id = reviewId) :
    imageSrc urlParses (run (handleImageError s reviewId) events) review = defaultImage ∧
    (∀ x, x ∈ (handleImageError s reviewId).imageErrors ↔ x = reviewId ∨ x ∈ s.imageErrors) ∧
    (∀ (st : State) (ev : Event) (x : Nat),
      x ∈ st.imageErrors → x ∈ (step st ev).1.imageErrors) := by
  subst hid
  refine ⟨?_, fun x => mem_setAdd _ _ _, step_imageErrors⟩
  have hmem : review.id ∈ (handleImageError s review.id).imageErrors :=
    (mem_setAdd _ _ _).mpr (Or.inl rfl)
  have hrun := run_imageErrors events _ _ hmem
  simp only [imageSrc, if_pos hrun, defaultImage]

/-- Witness of C4: after a failure for review 1002, and then a mount, an edit
and a successful submission, the second card still shows the default asset. -/
theorem handleImageError_sticky_witness :
    imageSrc schemeOnly
      (run (handleImageError initialState 1002)
        [.mount (.response true (.ok (.array [rated 3]))), .changeName "Alice",
         .submit (.response true (.ok "")) (.rejected "offline")])
      ⟨1002, "Manan", 4, "Great trainers and friendly environment!", some "/2.jpg"⟩
      = "/1.jpg" :=
  (handleImageError_sticky schemeOnly initialState 1002 _
    ⟨1002, "Manan", 4, "Great trainers and friendly environment!", some "/2.jpg"⟩ rfl).1

/-- C5: for every prior state and every outcome of the read request,
`fetchAllBackendReviews` stores the response body in `allBackendReviews` when the
response is successful and its body is an array, and leaves the whole state
unchanged in every other case (the request throws, the status is not successful,
the body cannot be read or is no array); in no case is a notification raised. -/
theorem fetchAllBackendReviews_replaces_iff (s : State) (get : GetOutcome) :
    (∀ data, get = .response true (.ok (.array data)) →
      (fetchAllBackendReviews s get).1 = { s with allBackendReviews := data }) ∧
    ((∀ data, get ≠ .response true (.ok (.array data))) →
      (fetchAllBackendReviews s get).1 = s) ∧
    (fetchAllBackendReviews s get).2.filter Effect.isAlert = [] := by
  refine ⟨?_, ?_, (fetch_effects s get).2.1⟩
  · intro data h
    subst h
    rfl
  · intro h
    rcases get with err | ⟨ok, json⟩
    · rfl
    · cases ok with
      | false => rfl
      | true =>
        rcases json with err | body
        · rfl
        · cases body with
          | array data => exact absurd rfl (h data)
          | nonArray => rfl

/-- Witness of C5: a successful array response replaces the list, a failed
status leaves it as it was. -/
theorem fetchAllBackendReviews_replaces_iff_witness :
    (fetchAllBackendReviews initialState (.response true (.ok (.array [rated 4])))).1
      = { initialState with allBackendReviews := [rated 4] } ∧
    (fetchAllBackendReviews { initialState with allBackendReviews := [rated 4] }
      (.response false (.ok (.array [rated 1])))).1
      = { initialState with allBackendReviews := [rated 4] } :=
  ⟨(fetchAllBackendReviews_replaces_iff initialState _).1 [rated 4] rfl,
   (fetchAllBackendReviews_replaces_iff _ (.response false (.ok (.array [rated 1])))).2.1
     (by intro data h; cases h)⟩

/-- C6: for every draft whose rating field is the decimal string of an integer
from 1 to 5, one run of `handleSubmit` issues exactly one POST, to
`/api/reviews`, with header `Content-Type: application/json`, whose body is the
JSON text of the object with `name` the draft name, `rating` that integer and
`message` the draft message; for Alice, 5, Great! the body is
`{"name":"Alice","rating":5,"message":"Great!"}`. -/
theorem handleSubmit_posts_once (s : State) (r : Nat) (post : PostOutcome) (get : GetOutcome)
    (h1 : 1 ≤ r) (h5 : r ≤ 5) (hr : s.rating = toString r) :
    (handleSubmit s post get).2.filter Effect.isPost =
      [.fetchPost "http://localhost:8080/api/reviews"
        [("Content-Type", "application/json")]
        (jsonStringify [("name", .str s.name), ("rating", .num (some (r : Int))),
          ("message", .str s.message)])] ∧
    (s.name = "Alice" → r = 5 → s.message = "Great!" →
      (handleSubmit s post get).2.filter Effect.isPost =
        [.fetchPost "http://localhost:8080/api/reviews"
          [("Content-Type", "application/json")]
          "\x7b\"name\":\"Alice\",\"rating\":5,\"message\":\"Great!\"\x7d"]) := by
  have hp : parseInt s.rating = some (r : Int) := by rw [hr]; exact parseInt_rating r h1 h5
  have hreq : (handleSubmit s post get).2.filter Effect.isPost =
      [.fetchPost "http://localhost:8080/api/reviews"
        [("Content-Type", "application/json")]
        (jsonStringify [("name", .str s.name), ("rating", .num (some (r : Int))),
          ("message", .str s.message)])] := by
    rw [submit_posts]
    simp only [submissionRequest, submissionBody, hp, reviewsUrl]
  refine ⟨hreq, ?_⟩
  intro hn h5' hm
  rw [hreq, hn, h5', hm]
  decide

/-- Witness of C6: the draft Alice, 5, Great! and a server that answers 201. -/
theorem handleSubmit_posts_once_witness :
    (handleSubmit { initialState with name := "Alice", rating := "5", message := "Great!" }
        (.response true (.ok "")) (.response true (.ok (.array [])))).2.filter Effect.isPost =
      [.fetchPost "http://localhost:8080/api/reviews"
        [("Content-Type", "application/json")]
        "\x7b\"name\":\"Alice\",\"rating\":5,\"message\":\"Great!\"\x7d"] :=
  (handleSubmit_posts_once
    { initialState with name := "Alice", rating := "5", message := "Great!" } 5
    (.response true (.ok "")) (.response true (.ok (.array [])))
    (by decide) (by decide) (by decide)).2 rfl rfl rfl

/-- C7: when the POST of `handleSubmit` returns a successful status, then for
every draft the fields name, rating and message are reset to the empty string,
exactly one notification is raised and it is the success notice, and the read
request of `fetchAllBackendReviews` is issued exactly once, its outcome being
applied to the cleared state. -/
theorem handleSubmit_success (s : State) (text : Except String String) (get : GetOutcome) :
    (handleSubmit s (.response true text) get).1.name = "" ∧
    (handleSubmit s (.response true text) get).1.rating = "" ∧
    (handleSubmit s (.response true text) get).1.message = "" ∧
    (handleSubmit s (.response true text) get).2.filter Effect.isAlert
      = [.alert "Review submitted successfully! Thank you for your feedback."] ∧
    (handleSubmit s (.response true text) get).2.filter Effect.isGet
      = [.fetchGet "http://localhost:8080/api/reviews"] ∧
    (handleSubmit s (.response true text) get).1
      = (fetchAllBackendReviews { s with name := "", rating := "", message := "" } get).1 := by
  obtain ⟨_, hn, hr, hm⟩ :=
    fetch_keeps_drafts { s with name := "", rating := "", message := "" } get
  obtain ⟨_, ha, hg⟩ :=
    fetch_effects { s with name := "", rating := "", message := "" } get
  refine ⟨hn, hr, hm, ?_, ?_, rfl⟩
  · simp only [handleSubmit]
    rw [List.filter_append, ha]
    rfl
  · simp only [handleSubmit]
    rw [List.filter_append, hg]
    rfl

/-- C8: when a submission fails, the state (the draft fields name, rating and
message with it) is left unchanged and no read request is issued; if the POST
returns a non-successful status the one notification is
`Failed to submit review: ` followed by the response body text, so it contains
that text (body `Invalid rating` gives a notification containing it), and if
the request or the reading of its body throws, the one notification is the
network-failure notice. -/
theorem handleSubmit_failure (s : State) (get : GetOutcome) :
    (∀ errorBody : String,
      (handleSubmit s (.response false (.ok errorBody)) get).1 = s ∧
      (handleSubmit s (.response false (.ok errorBody)) get).2.filter Effect.isGet = [] ∧
      (handleSubmit s (.response false (.ok errorBody)) get).2.filter Effect.isAlert
        = [.alert ("Failed to submit review: " ++ errorBody)] ∧
      errorBody.toList <:+: ("Failed to submit review: " ++ errorBody).toList) ∧
    (∀ err : String,
      (handleSubmit s (.rejected err) get).1 = s ∧
      (handleSubmit s (.rejected err) get).2.filter Effect.isGet = [] ∧
      (handleSubmit s (.rejected err) get).2.filter Effect.isAlert
        = [.alert "Network error. Please check your connection and try again."]) ∧
    (∀ err : String,
      (handleSubmit s (.response false (.error err)) get).1 = s ∧
      (handleSubmit s (.response false (.error err)) get).2.filter Effect.isGet = [] ∧
      (handleSubmit s (.response false (.error err)) get).2.filter Effect.isAlert
        = [.alert "Network error. Please check your connection and try again."]) ∧
    (handleSubmit s (.response false (.ok "Invalid rating")) get).2.filter Effect.isAlert
      = [.alert "Failed to submit review: Invalid rating"] := by
  refine ⟨?_, ?_, ?_, rfl⟩
  · intro errorBody
    refine ⟨rfl, rfl, rfl, ?_⟩
    show errorBody.data <:+: ("Failed to submit review: " ++ errorBody).data
    rw [String.data_append]
    exact (List.suffix_append _ _).isInfix
  · intro err
    exact ⟨rfl, rfl, rfl⟩
  · intro err
    exact ⟨rfl, rfl, rfl⟩

/-- C9, at the failing input: before the read request is answered the three
cards of the fixed reviews are shown; once it is answered with status 200 and
body `[null]` the list is stored, line 62 throws while the component renders,
and nothing is shown, the cards included. -/
theorem render_throws_after_null_item (urlParses : String → Bool) :
    (render urlParses initialState).map (fun v => v.cards.map (fun c => c.key))
      = .ok ["1001-0", "1002-1", "1003-2"] ∧
    (fetchAllBackendReviews initialState
      (.response true (.ok (.array [.null])))).1.allBackendReviews = [.null] ∧
    render urlParses
      (fetchAllBackendReviews initialState (.response true (.ok (.array [.null])))).1
      = .error .typeError :=
  ⟨rfl, rfl, rfl⟩

/-- C10, as amended: for every aggregate-source list for which
`calculateAverageRating` returns a finite number, star `i` of the five average
stars is filled exactly when `i` is below the floor of that average, so the
number of filled stars is the smaller of 5 and that floor; no star is filled
for the empty list and four are for the ratings 5, 4, 5. -/
theorem averageStars_filled_floor (s : State) (a : Average) (v : ℚ)
    (hcalc : calculateAverageRating (some s.allBackendReviews) = .ok a)
    (hv : a.value = some v) :
    (∃ stars, averageStars s = .ok stars ∧ stars.length = 5 ∧
      (∀ i, i < 5 → (stars[i]? = some true ↔ i < ⌊v⌋₊)) ∧
      stars.count true = min 5 ⌊v⌋₊) ∧
    (∀ st : State, st.allBackendReviews = [] →
      averageStars st = .ok [false, false, false, false, false]) ∧
    (∀ st : State, st.allBackendReviews = [rated 5, rated 4, rated 5] →
      averageStars st = .ok [true, true, true, true, false]) := by
  refine ⟨⟨_, averageStars_of s a v hcalc hv, by simp, ?_, stars_count _⟩, ?_, ?_⟩
  · intro i hi
    simp [List.getElem?_map, List.getElem?_range hi]
  · intro st h
    simp only [averageStars, h]
    decide
  · intro st h
    simp only [averageStars, h]
    decide

/-- Witness of C10 at a state whose aggregate-source list has ratings 5, 4, 5:
the average is 4.7 and four stars are filled. -/
theorem averageStars_filled_floor_witness :
    ∃ stars, averageStars { initialState with allBackendReviews := [rated 5, rated 4, rated 5] }
        = .ok stars ∧ stars.length = 5 ∧
      (∀ i, i < 5 → (stars[i]? = some true ↔ i < ⌊((47 : ℕ) : ℚ) / 10⌋₊)) ∧
      stars.count true = min 5 ⌊((47 : ℕ) : ℚ) / 10⌋₊ :=
  (averageStars_filled_floor
    { initialState with allBackendReviews := [rated 5, rated 4, rated 5] } (.fixed 47) _
    (by decide) rfl).1

/-- C10 as stated fails on the ratings 6, 7: the average shown is `6.5`, whose
floor is 6, and five stars are filled. -/
theorem averageStars_five_below_floor :
    calculateAverageRating (some [rated 6, rated 7]) = .ok (.fixed 65) ∧
    (Average.fixed 65).value = some ((65 : ℚ) / 10) ∧
    averageStars { initialState with allBackendReviews := [rated 6, rated 7] }
      = .ok [true, true, true, true, true] ∧
    ¬ ([true, true, true, true, true].count true = ⌊(65 : ℚ) / 10⌋₊) := by
  refine ⟨by decide, ?_, by decide, ?_⟩
  · simp [Average.value]
  · have e : (65 : ℚ) / 10 = ((65 : ℕ) : ℚ) / ((10 : ℕ) : ℚ) := by norm_num
    rw [e, Nat.floor_div_eq_div]
    decide

end ReviewSection
